import Mathlib

/-!
Shallow embedding of the capture-session state machine of
`src/app/(tabs)/index.tsx` (the `IndexScreen` component of the
face-scanner app), together with proofs about its operations.

The component's React state hooks become the fields of `AppState`; each
event handler (`onCapture`, `onAnalyze`, `onRetakeAll`, `onPrev`,
`onNext`, the inline retake-this-angle handler) becomes a pure function
on `AppState`.  The asynchronous analysis call is split at its `await`
point into a synchronous invocation prefix (`onAnalyzeInvoke`) and a
settlement step (`onAnalyzeSettle`).  The user-interface render
conditions that decide when a handler can fire at all (which screen is
shown, which buttons are rendered or disabled) become guards in
`applyEvent`, and `Reachable` closes the initial state under all events.

JavaScript truthiness matters in this file: the source tests slots with
`!photos[i]?.uri` and `!!p.uri` and filters with `.filter(Boolean)`, all
of which treat the empty string like `null`; `truthy` models that.
-/

namespace FaceScanner

/-- One photo slot: an angle label and the optional captured image URI
(source line 30, `type Slot = { label: SlotLabel; uri: string | null }`). -/
structure Slot where
  label : String
  uri : Option String
deriving DecidableEq

/-- The analysis report payload (source lines 7-11 / 54-59). The
confidence is a rational number standing for the JS number. -/
structure Report where
  skinType : String
  concerns : List String
  confidence : ℚ
  recommendations : List String
deriving DecidableEq

/-- The hardcoded response of the mock analysis backend
(source lines 14-24). -/
def mockReport : Report :=
  { skinType := "Combination"
    concerns := ["Dry patches", "Mild acne", "Uneven tone"]
    confidence := 86 / 100
    recommendations :=
      ["Gentle gel cleanser AM/PM", "Niacinamide serum 5% daily",
       "Non-comedogenic moisturizer", "SPF 50 broad-spectrum"] }

/-- The component state of `IndexScreen`: one field per React state hook
with state-transition content (source lines 38-59).  `photos` is the
slot array, `captureSlot` the active capture index, `currentIndex` the
carousel index, `captureMode` true iff the camera screen is shown,
`loading` true iff an analysis request is in flight, `result` the
analysis report if completed. -/
structure AppState where
  photos : List Slot
  captureSlot : Nat
  currentIndex : Nat
  captureMode : Bool
  loading : Bool
  result : Option Report
deriving DecidableEq

/-- The initial slot array (source lines 38-42). -/
def initialPhotos : List Slot :=
  [{ label := "Front", uri := none },
   { label := "Left", uri := none },
   { label := "Right", uri := none }]

/-- The initial component state (source lines 38-59). -/
def initState : AppState :=
  { photos := initialPhotos
    captureSlot := 0
    currentIndex := 0
    captureMode := true
    loading := false
    result := none }

/-- JavaScript truthiness of an optional string: `null` and `""` are
falsy, every other string truthy.  Used wherever the source tests a
`uri` with `!`, `!!` or `Boolean`. -/
def truthy : Option String → Bool
  | none => false
  | some u => u != ""

/-- `!photos[i]?.uri` (source line 100): slot `i` has no truthy image,
or the index is out of range. -/
def slotEmpty (photos : List Slot) (i : Nat) : Bool :=
  !truthy ((photos.get? i).bind Slot.uri)

/-- `photos.every((p) => !!p.uri)` (source line 147). -/
def allCaptured (photos : List Slot) : Bool :=
  photos.all fun p => truthy p.uri

/-- `photos.map((p) => p.uri).filter(Boolean)` (source line 118): the
captured URIs in slot order, dropping absent and empty entries. -/
def allUris (photos : List Slot) : List String :=
  (photos.filterMap Slot.uri).filter fun u => u != ""

/-- `next[captureSlot] = { ...next[captureSlot], uri }` inside the
`setPhotos` updater (source lines 92-96): overwrite slot `i`'s image,
keeping its label.  Out-of-range indices leave the list unchanged (the
source never produces one, see `Inv`). -/
def setSlotUri (photos : List Slot) (i : Nat) (uri : String) : List Slot :=
  match photos.get? i with
  | some sl => photos.set i { sl with uri := some uri }
  | none => photos

/-- `[0, 1, 2].find((i) => i !== captureSlot && !photos[i]?.uri)`
(source line 100): the first slot index in label order that is not the
just-filled one and has no image.  Note the source evaluates this on
the `photos` value captured before the `setPhotos` update, which is why
`onCapture` passes the pre-update list here. -/
def nextEmpty (photos : List Slot) (captureSlot : Nat) : Option Nat :=
  [0, 1, 2].find? fun i => i != captureSlot && slotEmpty photos i

/-- `onCapture` after a successful `takePictureAsync` (source lines
85-114): store the new URI into the active slot, clear any analysis
result, then either advance `captureSlot` to the next empty slot or,
when none remains, land the carousel on the just-filled slot and leave
capture mode.  The `loading` flag is not touched. -/
def onCapture (uri : String) (s : AppState) : AppState :=
  let s1 : AppState :=
    { s with photos := setSlotUri s.photos s.captureSlot uri, result := none }
  match nextEmpty s.photos s.captureSlot with
  | some j => { s1 with captureSlot := j }
  | none => { s1 with currentIndex := s.captureSlot, captureMode := false }

/-- The synchronous prefix of `onAnalyze` up to its `await` (source
lines 117-125): gather the captured URIs; if fewer than 3, warn and
return with no state change and no request; otherwise set `loading` and
issue the single request carrying the URIs.  The second component is
the request handed to the analysis collaborator, if any.  Note the
prior `result` is not written here. -/
def onAnalyzeInvoke (s : AppState) : AppState × Option (List String) :=
  let us := allUris s.photos
  if us.length < 3 then (s, none)
  else ({ s with loading := true }, some us)

/-- Outcome of the awaited analysis promise: fulfilled with a report,
or rejected with an error. -/
inductive AnalyzeOutcome where
  | success : Report → AnalyzeOutcome
  | failure : String → AnalyzeOutcome

/-- Settlement of the awaited call (source lines 124-129).  On success,
`setResult(r)` then the `finally` clears `loading`.  On rejection there
is no `catch`: the `finally` still clears `loading`, `result` is left
untouched, and the error propagates out of `onAnalyze` to the runtime
(returned here as the second component, the surfaced failure). -/
def onAnalyzeSettle (s : AppState) : AnalyzeOutcome → AppState × Option String
  | .success r => ({ s with result := some r, loading := false }, none)
  | .failure e => ({ s with loading := false }, some e)

/-- `onRetakeAll` (source lines 132-142): fresh empty slots, both
indices 0, result cleared, back to camera.  `loading` is not touched. -/
def onRetakeAll (s : AppState) : AppState :=
  { s with photos := initialPhotos
           captureSlot := 0
           currentIndex := 0
           result := none
           captureMode := true }

/-- `onPrev` (source line 144): `setCurrentIndex((i) => (i + 2) % 3)`. -/
def onPrev (s : AppState) : AppState :=
  { s with currentIndex := (s.currentIndex + 2) % 3 }

/-- `onNext` (source line 145): `setCurrentIndex((i) => (i + 1) % 3)`. -/
def onNext (s : AppState) : AppState :=
  { s with currentIndex := (s.currentIndex + 1) % 3 }

/-- The capture/retake-this-angle button handler on the preview screen
(source lines 248-251): `setCaptureSlot(currentIndex);
setCaptureMode(true)`. -/
def pressRetake (s : AppState) : AppState :=
  { s with captureSlot := s.currentIndex, captureMode := true }

/-- The tri-state analysis status of the specification, derived from
the source's `result`/`loading` pair: a present report means Completed,
otherwise an in-flight request means Pending, otherwise Idle. -/
inductive AnalysisStatus where
  | Idle
  | Pending
  | Completed
deriving DecidableEq

/-- Status read-back from the component state. -/
def status (s : AppState) : AnalysisStatus :=
  if s.result.isSome then .Completed
  else if s.loading then .Pending
  else .Idle

/-- The user-visible events of the screen. -/
inductive Event where
  | capture : String → Event
  | analyzePress : Event
  | analyzeSettle : AnalyzeOutcome → Event
  | retakeAllPress : Event
  | retakePress : Event
  | nextPress : Event
  | prevPress : Event

/-- The guard under which the Analyze button can deliver a press: the
preview screen is shown (source line 216), the button is rendered only
when `!result && !loading` (line 258), and it is `disabled` unless
`allCaptured` (line 262). -/
def analyzeEnabled (s : AppState) : Bool :=
  !s.captureMode && s.result.isNone && !s.loading && allCaptured s.photos

/-- One user-interface event applied to the state.  Each guard is the
render condition under which the source can deliver that event: the
capture button exists only on the camera screen (and a successful
capture presupposes camera readiness); the analyze, retake-this-angle,
retake-all and arrow buttons exist only on the preview screen; a
settlement presupposes an in-flight request.  A non-fireable event
leaves the state unchanged.  A successful capture carries a non-empty
URI: the camera collaborator yields `image | error`, and a successful
`takePictureAsync` resolves with the file URI of the stored photo; the
empty string is not an image reference (under JS truthiness the source
would treat such a slot as still empty). -/
def applyEvent (e : Event) (s : AppState) : AppState :=
  match e with
  | .capture uri => if s.captureMode && uri != "" then onCapture uri s else s
  | .analyzePress => if analyzeEnabled s then (onAnalyzeInvoke s).1 else s
  | .analyzeSettle o => if s.loading then (onAnalyzeSettle s o).1 else s
  | .retakeAllPress => if !s.captureMode then onRetakeAll s else s
  | .retakePress => if !s.captureMode then pressRetake s else s
  | .nextPress => if !s.captureMode then onNext s else s
  | .prevPress => if !s.captureMode then onPrev s else s

/-- The request an analyze press hands to the analysis collaborator,
if any. -/
def analyzeRequest (s : AppState) : Option (List String) :=
  if analyzeEnabled s then (onAnalyzeInvoke s).2 else none

/-- States the screen can actually be in: the initial state closed
under all user-interface events. -/
inductive Reachable : AppState → Prop where
  | init : Reachable initState
  | step : ∀ {s : AppState} (e : Event), Reachable s → Reachable (applyEvent e s)

/-- The claim C1 scan order, written from the specification's words for
comparison with the source's `nextEmpty`: scan the slot indices in a
fixed cyclic order starting after the current index (wrapping to the
start), excluding the just-filled one, for the first slot with an
empty image. -/
def cyclicNextEmpty (photos : List Slot) (cur : Nat) : Option Nat :=
  [(cur + 1) % 3, (cur + 2) % 3].find? fun i => slotEmpty photos i

/-- Structural invariant of the screen state: three slots, both indices
in range, every slot before the active capture index already filled,
and on the preview screen every slot filled. -/
def Inv (s : AppState) : Prop :=
  s.photos.length = 3 ∧ s.captureSlot < 3 ∧ s.currentIndex < 3 ∧
    (∀ i, i < s.captureSlot → slotEmpty s.photos i = false) ∧
    (s.captureMode = false → allCaptured s.photos = true)

/-- The state after one successful capture in a fresh session. -/
def stateAfterOne : AppState := applyEvent (Event.capture "a") initState

/-- The state after two successful captures in a fresh session. -/
def stateAfterTwo : AppState := applyEvent (Event.capture "b") stateAfterOne

/-- The state after capturing all three angles: the preview screen. -/
def reviewedState : AppState := applyEvent (Event.capture "c") stateAfterTwo

/-- The preview state with an analysis request in flight, reached by
pressing Analyze. -/
def pendingState : AppState := applyEvent Event.analyzePress reviewedState

/-- The camera reopened on the displayed slot while the analysis
request is still in flight, reached by pressing the retake-this-angle
button during loading (the button is rendered regardless of
`loading`, source lines 247-255). -/
def retakePendingState : AppState := applyEvent Event.retakePress pendingState

/-- The preview state after a successful analysis: all three slots
filled and the mock report stored, reached by the in-flight request
resolving. -/
def completedState : AppState :=
  applyEvent (Event.analyzeSettle (AnalyzeOutcome.success mockReport)) pendingState

/-- Every list of length 3 is a literal three-element list. -/
lemma exists_three {α : Type} {l : List α} (h : l.length = 3) :
    ∃ a b c, l = [a, b, c] := by
  rcases l with _ | ⟨a, l⟩
  · simp at h
  rcases l with _ | ⟨b, l⟩
  · simp at h
  rcases l with _ | ⟨c, l⟩
  · simp at h
  rcases l with _ | ⟨d, l⟩
  · exact ⟨a, b, c, rfl⟩
  · simp at h

/-- When all three slots are captured, no slot is empty. -/
lemma filled_of_allCaptured {photos : List Slot} (h3 : photos.length = 3)
    (h : allCaptured photos = true) : ∀ i, i < 3 → slotEmpty photos i = false := by
  obtain ⟨p0, p1, p2, rfl⟩ := exists_three h3
  simp [allCaptured] at h
  intro i hi
  interval_cases i <;> simp [slotEmpty, h.1, h.2.1, h.2.2]

/-- The initial state satisfies the invariant. -/
lemma inv_init : Inv initState := by
  refine ⟨rfl, ?_, ?_, ?_, ?_⟩ <;> simp [initState]

/-- A successful capture preserves the invariant. -/
lemma inv_onCapture {s : AppState} (h : Inv s) (uri : String)
    (hcm : s.captureMode = true) (hu : (uri != "") = true) :
    Inv (onCapture uri s) := by
  obtain ⟨h3, hc, hi, hpre, hrev⟩ := h
  obtain ⟨photos, c, ci, cm, ld, res⟩ := s
  simp only at h3 hc hi hpre hrev hcm ⊢
  subst hcm
  obtain ⟨p0, p1, p2, rfl⟩ := exists_three h3
  have htu : truthy (some uri) = true := by simp [truthy, hu]
  interval_cases c
  · rcases ht1 : truthy p1.uri with _ | _
    · have hne : nextEmpty [p0, p1, p2] 0 = some 1 := by
        simp [nextEmpty, slotEmpty, ht1]
      have hst : onCapture uri ⟨[p0, p1, p2], 0, ci, true, ld, res⟩ =
          ⟨[{ p0 with uri := some uri }, p1, p2], 1, ci, true, ld, none⟩ := by
        simp [onCapture, hne, setSlotUri]
      rw [hst]
      refine ⟨rfl, by simp, hi, ?_, by simp⟩
      intro i hilt
      simp only [] at hilt
      interval_cases i
      simp [slotEmpty, htu]
    · rcases ht2 : truthy p2.uri with _ | _
      · have hne : nextEmpty [p0, p1, p2] 0 = some 2 := by
          simp [nextEmpty, slotEmpty, ht1, ht2]
        have hst : onCapture uri ⟨[p0, p1, p2], 0, ci, true, ld, res⟩ =
            ⟨[{ p0 with uri := some uri }, p1, p2], 2, ci, true, ld, none⟩ := by
          simp [onCapture, hne, setSlotUri]
        rw [hst]
        refine ⟨rfl, by simp, hi, ?_, by simp⟩
        intro i hilt
        simp only [] at hilt
        interval_cases i <;> simp [slotEmpty, htu, ht1]
      · have hne : nextEmpty [p0, p1, p2] 0 = none := by
          simp [nextEmpty, slotEmpty, ht1, ht2]
        have hst : onCapture uri ⟨[p0, p1, p2], 0, ci, true, ld, res⟩ =
            ⟨[{ p0 with uri := some uri }, p1, p2], 0, 0, false, ld, none⟩ := by
          simp [onCapture, hne, setSlotUri]
        rw [hst]
        refine ⟨rfl, by simp, by simp, ?_, ?_⟩
        · intro i hilt; simp at hilt
        · intro _; simp [allCaptured, htu, ht1, ht2]
  · have ht0 : truthy p0.uri = true := by
      have := hpre 0 (by omega)
      simpa [slotEmpty] using this
    rcases ht2 : truthy p2.uri with _ | _
    · have hne : nextEmpty [p0, p1, p2] 1 = some 2 := by
        simp [nextEmpty, slotEmpty, ht0, ht2]
      have hst : onCapture uri ⟨[p0, p1, p2], 1, ci, true, ld, res⟩ =
          ⟨[p0, { p1 with uri := some uri }, p2], 2, ci, true, ld, none⟩ := by
        simp [onCapture, hne, setSlotUri]
      rw [hst]
      refine ⟨rfl, by simp, hi, ?_, by simp⟩
      intro i hilt
      simp only [] at hilt
      interval_cases i <;> simp [slotEmpty, htu, ht0]
    · have hne : nextEmpty [p0, p1, p2] 1 = none := by
        simp [nextEmpty, slotEmpty, ht0, ht2]
      have hst : onCapture uri ⟨[p0, p1, p2], 1, ci, true, ld, res⟩ =
          ⟨[p0, { p1 with uri := some uri }, p2], 1, 1, false, ld, none⟩ := by
        simp [onCapture, hne, setSlotUri]
      rw [hst]
      refine ⟨rfl, by simp, by simp, ?_, ?_⟩
      · intro i hilt
        simp only [] at hilt
        interval_cases i
        simp [slotEmpty, ht0]
      · intro _; simp [allCaptured, htu, ht0, ht2]
  · have ht0 : truthy p0.uri = true := by
      have := hpre 0 (by omega)
      simpa [slotEmpty] using this
    have ht1 : truthy p1.uri = true := by
      have := hpre 1 (by omega)
      simpa [slotEmpty] using this
    have hne : nextEmpty [p0, p1, p2] 2 = none := by
      simp [nextEmpty, slotEmpty, ht0, ht1]
    have hst : onCapture uri ⟨[p0, p1, p2], 2, ci, true, ld, res⟩ =
        ⟨[p0, p1, { p2 with uri := some uri }], 2, 2, false, ld, none⟩ := by
      simp [onCapture, hne, setSlotUri]
    rw [hst]
    refine ⟨rfl, by simp, by simp, ?_, ?_⟩
    · intro i hilt
      simp only [] at hilt
      interval_cases i <;> simp [slotEmpty, ht0, ht1]
    · intro _; simp [allCaptured, htu, ht0, ht1]

/-- Every user-interface event preserves the invariant. -/
lemma inv_applyEvent (e : Event) (s : AppState) (h : Inv s) :
    Inv (applyEvent e s) := by
  obtain ⟨h3, hc, hi, hpre, hrev⟩ := h
  cases e with
  | capture uri =>
    rcases hg : s.captureMode && (uri != "") with _ | _
    · simpa [applyEvent, hg] using ⟨h3, hc, hi, hpre, hrev⟩
    · rw [Bool.and_eq_true] at hg
      simp only [applyEvent, hg.1, hg.2, Bool.and_self, if_pos]
      exact inv_onCapture ⟨h3, hc, hi, hpre, hrev⟩ uri hg.1 hg.2
  | analyzePress =>
    by_cases hg : analyzeEnabled s = true
    · simp only [applyEvent, if_pos hg]
      unfold onAnalyzeInvoke
      by_cases hl : (allUris s.photos).length < 3
      · simpa [hl] using ⟨h3, hc, hi, hpre, hrev⟩
      · simpa [hl] using ⟨h3, hc, hi, hpre, hrev⟩
    · simpa [applyEvent, hg] using ⟨h3, hc, hi, hpre, hrev⟩
  | analyzeSettle o =>
    by_cases hl : s.loading = true
    · cases o with
      | success r =>
        simpa [applyEvent, hl, onAnalyzeSettle] using ⟨h3, hc, hi, hpre, hrev⟩
      | failure e =>
        simpa [applyEvent, hl, onAnalyzeSettle] using ⟨h3, hc, hi, hpre, hrev⟩
    · simpa [applyEvent, hl] using ⟨h3, hc, hi, hpre, hrev⟩
  | retakeAllPress =>
    by_cases hg : s.captureMode = true
    · simpa [applyEvent, hg] using ⟨h3, hc, hi, hpre, hrev⟩
    · simp only [applyEvent, hg, Bool.not_eq_true', Bool.not_true, if_pos,
        Bool.not_eq_true]
      refine ⟨rfl, ?_, ?_, ?_, ?_⟩ <;> simp [onRetakeAll]
  | retakePress =>
    by_cases hg : s.captureMode = true
    · simpa [applyEvent, hg] using ⟨h3, hc, hi, hpre, hrev⟩
    · have hall : allCaptured s.photos = true := hrev (by simpa using hg)
      have hfill := filled_of_allCaptured h3 hall
      have hg2 : (!s.captureMode) = true := by simp [hg]
      simp only [applyEvent, hg2, if_pos]
      refine ⟨h3, hi, hi, ?_, by simp [pressRetake]⟩
      intro i hilt
      simp only [pressRetake] at hilt
      exact hfill i (by omega)
  | nextPress =>
    by_cases hg : s.captureMode = true
    · simpa [applyEvent, hg] using ⟨h3, hc, hi, hpre, hrev⟩
    · have hg2 : (!s.captureMode) = true := by simp [hg]
      simp only [applyEvent, hg2, if_pos]
      exact ⟨h3, hc, by simp [onNext]; omega, hpre, hrev⟩
  | prevPress =>
    by_cases hg : s.captureMode = true
    · simpa [applyEvent, hg] using ⟨h3, hc, hi, hpre, hrev⟩
    · have hg2 : (!s.captureMode) = true := by simp [hg]
      simp only [applyEvent, hg2, if_pos]
      exact ⟨h3, hc, by simp [onPrev]; omega, hpre, hrev⟩

/-- Every reachable screen state satisfies the invariant. -/
lemma reachable_inv {s : AppState} (hr : Reachable s) : Inv s := by
  induction hr with
  | init => exact inv_init
  | step e _ ih => exact inv_applyEvent e _ ih

/-- The three-capture preview state is reachable. -/
lemma reachable_reviewedState : Reachable reviewedState :=
  Reachable.step (Event.capture "c")
    (Reachable.step (Event.capture "b")
      (Reachable.step (Event.capture "a") Reachable.init))

/-- The in-flight analysis state is reachable. -/
lemma reachable_pendingState : Reachable pendingState :=
  Reachable.step Event.analyzePress reachable_reviewedState

/-- The capture-during-loading state is reachable. -/
lemma reachable_retakePendingState : Reachable retakePendingState :=
  Reachable.step Event.retakePress reachable_pendingState

/-- The completed-analysis state is reachable. -/
lemma reachable_completedState : Reachable completedState :=
  Reachable.step (Event.analyzeSettle (AnalyzeOutcome.success mockReport))
    reachable_pendingState

/-- C1: in every reachable session state in Capturing mode, a
successful capture into the active slot advances exactly as the
cyclic-scan description says: scanning the indices in a fixed cyclic
order starting after the current index (wrapping to the start),
excluding the just-filled slot, for the first slot with an empty image
— if such an index exists, `captureSlot` becomes that index and the
screen stays in capture mode; if none exists, `currentIndex` becomes
the just-filled index and the screen transitions to the review mode. -/
theorem C1_capture_advances_cyclically (s : AppState) (hr : Reachable s)
    (hm : s.captureMode = true) (uri : String) (hu : uri ≠ "") :
    (∀ j, cyclicNextEmpty (onCapture uri s).photos s.captureSlot = some j →
        (onCapture uri s).captureSlot = j ∧
          (onCapture uri s).captureMode = true) ∧
      (cyclicNextEmpty (onCapture uri s).photos s.captureSlot = none →
        (onCapture uri s).currentIndex = s.captureSlot ∧
          (onCapture uri s).captureMode = false) := by
  obtain ⟨h3, hc, hi, hpre, hrev⟩ := reachable_inv hr
  obtain ⟨photos, c, ci, cm, ld, res⟩ := s
  simp only at h3 hc hi hpre hm ⊢
  subst hm
  obtain ⟨p0, p1, p2, rfl⟩ := exists_three h3
  have hu2 : (uri != "") = true := by simp [hu]
  have htu : truthy (some uri) = true := by simp [truthy, hu2]
  interval_cases c
  · rcases ht1 : truthy p1.uri with _ | _
    · have hne : nextEmpty [p0, p1, p2] 0 = some 1 := by
        simp [nextEmpty, slotEmpty, ht1]
      have hst : onCapture uri ⟨[p0, p1, p2], 0, ci, true, ld, res⟩ =
          ⟨[{ p0 with uri := some uri }, p1, p2], 1, ci, true, ld, none⟩ := by
        simp [onCapture, hne, setSlotUri]
      rw [hst]
      simp [cyclicNextEmpty, slotEmpty, ht1]
    · rcases ht2 : truthy p2.uri with _ | _
      · have hne : nextEmpty [p0, p1, p2] 0 = some 2 := by
          simp [nextEmpty, slotEmpty, ht1, ht2]
        have hst : onCapture uri ⟨[p0, p1, p2], 0, ci, true, ld, res⟩ =
            ⟨[{ p0 with uri := some uri }, p1, p2], 2, ci, true, ld, none⟩ := by
          simp [onCapture, hne, setSlotUri]
        rw [hst]
        simp [cyclicNextEmpty, slotEmpty, ht1, ht2]
      · have hne : nextEmpty [p0, p1, p2] 0 = none := by
          simp [nextEmpty, slotEmpty, ht1, ht2]
        have hst : onCapture uri ⟨[p0, p1, p2], 0, ci, true, ld, res⟩ =
            ⟨[{ p0 with uri := some uri }, p1, p2], 0, 0, false, ld, none⟩ := by
          simp [onCapture, hne, setSlotUri]
        rw [hst]
        simp [cyclicNextEmpty, slotEmpty, ht1, ht2]
  · have ht0 : truthy p0.uri = true := by
      have := hpre 0 (by omega)
      simpa [slotEmpty] using this
    rcases ht2 : truthy p2.uri with _ | _
    · have hne : nextEmpty [p0, p1, p2] 1 = some 2 := by
        simp [nextEmpty, slotEmpty, ht0, ht2]
      have hst : onCapture uri ⟨[p0, p1, p2], 1, ci, true, ld, res⟩ =
          ⟨[p0, { p1 with uri := some uri }, p2], 2, ci, true, ld, none⟩ := by
        simp [onCapture, hne, setSlotUri]
      rw [hst]
      simp [cyclicNextEmpty, slotEmpty, ht0, ht2]
    · have hne : nextEmpty [p0, p1, p2] 1 = none := by
        simp [nextEmpty, slotEmpty, ht0, ht2]
      have hst : onCapture uri ⟨[p0, p1, p2], 1, ci, true, ld, res⟩ =
          ⟨[p0, { p1 with uri := some uri }, p2], 1, 1, false, ld, none⟩ := by
        simp [onCapture, hne, setSlotUri]
      rw [hst]
      simp [cyclicNextEmpty, slotEmpty, ht0, ht2, htu]
  · have ht0 : truthy p0.uri = true := by
      have := hpre 0 (by omega)
      simpa [slotEmpty] using this
    have ht1 : truthy p1.uri = true := by
      have := hpre 1 (by omega)
      simpa [slotEmpty] using this
    have hne : nextEmpty [p0, p1, p2] 2 = none := by
      simp [nextEmpty, slotEmpty, ht0, ht1]
    have hst : onCapture uri ⟨[p0, p1, p2], 2, ci, true, ld, res⟩ =
        ⟨[p0, p1, { p2 with uri := some uri }], 2, 2, false, ld, none⟩ := by
      simp [onCapture, hne, setSlotUri]
    rw [hst]
    simp [cyclicNextEmpty, slotEmpty, ht0, ht1]

/-- Witness for C1 at the initial session state: capturing "a" into
slot 0 advances the active capture index to slot 1, the first empty
slot after 0 in cyclic order, and stays in capture mode. -/
theorem C1_capture_advances_cyclically_witness :
    (onCapture "a" initState).captureSlot = 1 ∧
      (onCapture "a" initState).captureMode = true :=
  (C1_capture_advances_cyclically initState Reachable.init rfl "a"
      (by decide)).1 1 (by decide)

/-- C2: while the analysis status is Pending, a second analyze press
is a no-op: the state is unchanged and no request reaches the analysis
collaborator.  The rejection lives in the presentation guard — the
Analyze button is rendered only when `!result && !loading` (source line
258) — so at most one analysis request is ever outstanding. -/
theorem C2_no_second_analyze_while_pending (s : AppState)
    (h : status s = AnalysisStatus.Pending) :
    applyEvent Event.analyzePress s = s ∧ analyzeRequest s = none := by
  have hl : s.loading = true := by
    unfold status at h
    by_cases hr : s.result.isSome <;> by_cases hld : s.loading = true <;>
      simp_all
  have hg : analyzeEnabled s = false := by simp [analyzeEnabled, hl]
  simp [applyEvent, analyzeRequest, hg]

/-- Witness for C2 at the reachable in-flight state. -/
theorem C2_no_second_analyze_while_pending_witness :
    applyEvent Event.analyzePress pendingState = pendingState ∧
      analyzeRequest pendingState = none :=
  C2_no_second_analyze_while_pending pendingState (by decide)

/-- Counterexample to C3 as stated: the reachable state after a
successful analysis has all three slots filled and a prior report
present, yet invoking analyze there does not clear the prior report and
does not set status Pending — `onAnalyze` never writes `result`, so a
direct invocation retains the report in flight (derived status stays
Completed), and the user-interface press is a dead no-op issuing no
request (the Analyze button is rendered only when `!result`, source
line 258). -/
theorem C3_counterexample :
    Reachable completedState ∧
      allCaptured completedState.photos = true ∧
      completedState.result = some mockReport ∧
      (onAnalyzeInvoke completedState).1.result = some mockReport ∧
      status (onAnalyzeInvoke completedState).1 = AnalysisStatus.Completed ∧
      applyEvent Event.analyzePress completedState = completedState ∧
      analyzeRequest completedState = none :=
  ⟨reachable_completedState, by rfl, by rfl, by rfl, by rfl, by rfl, by rfl⟩

/-- C3 amended: invoking analyze with all three slots captured and no
prior report present — the only all-filled states from which the
program can invoke it, since the Analyze button is rendered only when
no report is shown — immediately sets status Pending, retains no report
while the request is in flight, changes nothing but the in-flight flag,
and issues exactly one request carrying the three captured URIs in slot
order. -/
theorem C3_analyze_issues_one_ordered_request (s : AppState)
    (l0 l1 l2 u0 u1 u2 : String)
    (hp : s.photos = [⟨l0, some u0⟩, ⟨l1, some u1⟩, ⟨l2, some u2⟩])
    (h0 : u0 ≠ "") (h1 : u1 ≠ "") (h2 : u2 ≠ "")
    (hres : s.result = none) :
    (onAnalyzeInvoke s).2 = some [u0, u1, u2] ∧
      status (onAnalyzeInvoke s).1 = AnalysisStatus.Pending ∧
      (onAnalyzeInvoke s).1.result = none ∧
      (onAnalyzeInvoke s).1 = { s with loading := true } := by
  have hus : allUris s.photos = [u0, u1, u2] := by
    simp [allUris, hp, h0, h1, h2]
  unfold onAnalyzeInvoke
  simp [hus, status, hres]

/-- Witness for C3 at the reachable three-capture preview state. -/
theorem C3_analyze_issues_one_ordered_request_witness :
    (onAnalyzeInvoke reviewedState).2 = some ["a", "b", "c"] ∧
      status (onAnalyzeInvoke reviewedState).1 = AnalysisStatus.Pending ∧
      (onAnalyzeInvoke reviewedState).1.result = none ∧
      (onAnalyzeInvoke reviewedState).1 =
        { reviewedState with loading := true } :=
  C3_analyze_issues_one_ordered_request reviewedState
    "Front" "Left" "Right" "a" "b" "c" (by decide) (by decide) (by decide)
    (by decide) (by decide)

/-- C4: when the analysis collaborator call fails, the settle step
clears the in-flight flag so the status returns to Idle (no report was
present at invocation and none is stored), the failure propagates
outward for logging, and every other part of the session state — slots,
mode, indices — is unchanged. -/
theorem C4_failure_recovers_to_idle (s : AppState) (e : String)
    (hres : s.result = none) :
    (onAnalyzeSettle s (AnalyzeOutcome.failure e)).1 =
        { s with loading := false } ∧
      status (onAnalyzeSettle s (AnalyzeOutcome.failure e)).1 =
        AnalysisStatus.Idle ∧
      (onAnalyzeSettle s (AnalyzeOutcome.failure e)).1.result = none ∧
      (onAnalyzeSettle s (AnalyzeOutcome.failure e)).2 = some e := by
  simp [onAnalyzeSettle, status, hres]

/-- Witness for C4 at the reachable in-flight state. -/
theorem C4_failure_recovers_to_idle_witness :
    (onAnalyzeSettle pendingState (AnalyzeOutcome.failure "timeout")).1 =
        { pendingState with loading := false } ∧
      status (onAnalyzeSettle pendingState (AnalyzeOutcome.failure "timeout")).1 =
        AnalysisStatus.Idle ∧
      (onAnalyzeSettle pendingState (AnalyzeOutcome.failure "timeout")).1.result =
        none ∧
      (onAnalyzeSettle pendingState (AnalyzeOutcome.failure "timeout")).2 =
        some "timeout" :=
  C4_failure_recovers_to_idle pendingState "timeout" (by decide)

/-- With three slots of which some has no truthy image, fewer than
three URIs survive the filter. -/
lemma allUris_short {p0 p1 p2 : Slot}
    (hnc : allCaptured [p0, p1, p2] = false) :
    (allUris [p0, p1, p2]).length < 3 := by
  have hfil : (allUris [p0, p1, p2]).length ≤
      (List.filterMap Slot.uri [p0, p1, p2]).length := List.length_filter_le _ _
  rcases p0 with ⟨a0, u0⟩
  rcases p1 with ⟨a1, u1⟩
  rcases p2 with ⟨a2, u2⟩
  rcases u0 with _ | v0
  · have h2 : (List.filterMap Slot.uri [⟨a1, u1⟩, ⟨a2, u2⟩]).length ≤ 2 :=
      le_trans (List.length_filterMap_le _ _) (by simp)
    have hcons : List.filterMap Slot.uri
        [(⟨a0, none⟩ : Slot), ⟨a1, u1⟩, ⟨a2, u2⟩] =
          List.filterMap Slot.uri [⟨a1, u1⟩, ⟨a2, u2⟩] := rfl
    rw [hcons] at hfil
    omega
  rcases u1 with _ | v1
  · have h2 : (List.filterMap Slot.uri [⟨a2, u2⟩]).length ≤ 1 :=
      le_trans (List.length_filterMap_le _ _) (by simp)
    have hcons : List.filterMap Slot.uri
        [(⟨a0, some v0⟩ : Slot), ⟨a1, none⟩, ⟨a2, u2⟩] =
          v0 :: List.filterMap Slot.uri [⟨a2, u2⟩] := rfl
    rw [hcons] at hfil
    simp only [List.length_cons] at hfil
    omega
  rcases u2 with _ | v2
  · have hcons : List.filterMap Slot.uri
        [(⟨a0, some v0⟩ : Slot), ⟨a1, some v1⟩, ⟨a2, none⟩] = [v0, v1] := rfl
    rw [hcons] at hfil
    simp only [List.length_cons, List.length_nil] at hfil
    omega
  have hor : v0 = "" ∨ v1 = "" ∨ v2 = "" := by
    by_contra hcon
    push_neg at hcon
    simp [allCaptured, truthy, hcon.1, hcon.2.1, hcon.2.2] at hnc
  have he : allUris [⟨a0, some v0⟩, ⟨a1, some v1⟩, ⟨a2, some v2⟩] =
      [v0, v1, v2].filter fun u => u != "" := by
    simp [allUris]
  rw [he]
  rcases hor with h | h | h <;> subst h
  · by_cases b1 : (v1 != "") = true <;> by_cases b2 : (v2 != "") = true <;>
      simp [List.filter_cons, b1, b2]
  · by_cases b1 : (v0 != "") = true <;> by_cases b2 : (v2 != "") = true <;>
      simp [List.filter_cons, b1, b2]
  · by_cases b1 : (v0 != "") = true <;> by_cases b2 : (v1 != "") = true <;>
      simp [List.filter_cons, b1, b2]

/-- C5: invoking analyze while not every slot has a (truthy) image is
rejected inside the handler with no side effect at all: the state —
slots, mode, indices, status — is returned unchanged and no request is
handed to the analysis collaborator, so an Idle status stays Idle. -/
theorem C5_analyze_rejected_when_not_ready (s : AppState)
    (h3 : s.photos.length = 3) (hnc : allCaptured s.photos = false) :
    onAnalyzeInvoke s = (s, none) ∧
      status (onAnalyzeInvoke s).1 = status s := by
  obtain ⟨p0, p1, p2, hp⟩ := exists_three h3
  have hlt : (allUris s.photos).length < 3 := by
    rw [hp]
    exact allUris_short (hp ▸ hnc)
  refine ⟨?_, ?_⟩ <;> simp [onAnalyzeInvoke, hlt]

/-- Witness for C5 at the initial state, where no slot is captured. -/
theorem C5_analyze_rejected_when_not_ready_witness :
    onAnalyzeInvoke initState = (initState, none) ∧
      status (onAnalyzeInvoke initState).1 = status initState :=
  C5_analyze_rejected_when_not_ready initState (by decide) (by decide)

/-- Counterexample to C6 as stated: in the reachable state reached by
capturing all three angles, pressing Analyze (request now in flight)
and then pressing retake-this-angle, a successful capture replaces the
displayed slot's image and clears the report, but the status is
Pending, not Idle, because `onCapture` never touches `loading`. -/
theorem C6_counterexample :
    Reachable retakePendingState ∧
      retakePendingState.captureMode = true ∧
      (onCapture "d" retakePendingState).result = none ∧
      status (onCapture "d" retakePendingState) = AnalysisStatus.Pending :=
  ⟨reachable_retakePendingState, by decide, by decide, by decide⟩

/-- C6 amended: whenever any slot's image is assigned or replaced by a
successful capture, the analysis report is cleared; the in-flight flag
is untouched, so the status is reset to Idle exactly when no analysis
request is in flight at the moment of the capture. -/
theorem C6_capture_clears_report (s : AppState) (uri : String) :
    (onCapture uri s).result = none ∧
      (onCapture uri s).loading = s.loading ∧
      (s.loading = false → status (onCapture uri s) = AnalysisStatus.Idle) := by
  unfold onCapture status
  cases h : nextEmpty s.photos s.captureSlot <;> simp [h]

/-- Witness for C6 (amended) after a retake press from the completed
preview state with no analysis in flight. -/
theorem C6_capture_clears_report_witness :
    (onCapture "d" (pressRetake reviewedState)).result = none ∧
      (onCapture "d" (pressRetake reviewedState)).loading =
        (pressRetake reviewedState).loading ∧
      ((pressRetake reviewedState).loading = false →
        status (onCapture "d" (pressRetake reviewedState)) =
          AnalysisStatus.Idle) :=
  C6_capture_clears_report (pressRetake reviewedState) "d"

/-- Counterexample to C7 as stated: pressing Retake All while an
analysis request is in flight (the button is rendered during loading,
source line 294) resets the slots and clears the report, but the status
is Pending, not Idle, because `onRetakeAll` never touches `loading`. -/
theorem C7_counterexample :
    Reachable pendingState ∧
      status pendingState = AnalysisStatus.Pending ∧
      status (onRetakeAll pendingState) = AnalysisStatus.Pending :=
  ⟨reachable_pendingState, by decide, by decide⟩

/-- C7 amended: `retakeAll` resets every slot's image to absent while
preserving the labels and the count, sets both indices to 0, clears the
report, and returns to capture mode; the in-flight flag is untouched,
so the analysis status is Idle exactly when no request is in flight. -/
theorem C7_retakeAll_resets (s : AppState) :
    (onRetakeAll s).photos = initialPhotos ∧
      (onRetakeAll s).photos.map Slot.label = ["Front", "Left", "Right"] ∧
      (∀ p ∈ (onRetakeAll s).photos, p.uri = none) ∧
      (onRetakeAll s).captureSlot = 0 ∧
      (onRetakeAll s).currentIndex = 0 ∧
      (onRetakeAll s).result = none ∧
      (onRetakeAll s).captureMode = true ∧
      (onRetakeAll s).loading = s.loading ∧
      (s.loading = false → status (onRetakeAll s) = AnalysisStatus.Idle) := by
  refine ⟨rfl, by simp [onRetakeAll, initialPhotos], ?_, rfl, rfl, rfl, rfl, rfl, ?_⟩
  · intro p hp
    simp [onRetakeAll, initialPhotos] at hp
    rcases hp with h | h | h <;> subst h <;> rfl
  · intro h
    simp [onRetakeAll, status, h]

/-- Witness for C7 (amended) at the three-capture preview state. -/
theorem C7_retakeAll_resets_witness :
    (onRetakeAll reviewedState).photos = initialPhotos ∧
      (onRetakeAll reviewedState).photos.map Slot.label =
        ["Front", "Left", "Right"] ∧
      (∀ p ∈ (onRetakeAll reviewedState).photos, p.uri = none) ∧
      (onRetakeAll reviewedState).captureSlot = 0 ∧
      (onRetakeAll reviewedState).currentIndex = 0 ∧
      (onRetakeAll reviewedState).result = none ∧
      (onRetakeAll reviewedState).captureMode = true ∧
      (onRetakeAll reviewedState).loading = reviewedState.loading ∧
      (reviewedState.loading = false →
        status (onRetakeAll reviewedState) = AnalysisStatus.Idle) :=
  C7_retakeAll_resets reviewedState

/-- C8: the three-capture scenario from a fresh session: after the
first successful capture the active slot is 1, after the second it is
2, and after the third the screen leaves capture mode (Reviewing) with
the carousel on slot 2 and all three slots captured. -/
theorem C8_three_capture_scenario :
    stateAfterOne.captureSlot = 1 ∧ stateAfterOne.captureMode = true ∧
      stateAfterTwo.captureSlot = 2 ∧ stateAfterTwo.captureMode = true ∧
      reviewedState.captureMode = false ∧ reviewedState.currentIndex = 2 ∧
      allCaptured reviewedState.photos = true := by
  decide

/-- C9: the carousel arrows are inverse cyclic successor/predecessor
maps: next is +1 mod 3, previous is -1 mod 3 (stated over ℤ since the
source computes `(i + 2) % 3`), both stay in range, three applications
of either return to the start, and neither touches the slots. -/
theorem C9_navigation (s : AppState) (h : s.currentIndex < 3) :
    (onNext s).currentIndex = (s.currentIndex + 1) % 3 ∧
      ((onPrev s).currentIndex : ℤ) = ((s.currentIndex : ℤ) - 1 + 3) % 3 ∧
      (onNext s).currentIndex < 3 ∧ (onPrev s).currentIndex < 3 ∧
      (onNext (onNext (onNext s))).currentIndex = s.currentIndex ∧
      (onPrev (onPrev (onPrev s))).currentIndex = s.currentIndex ∧
      (onNext s).photos = s.photos ∧ (onPrev s).photos = s.photos := by
  unfold onNext onPrev
  refine ⟨rfl, ?_, ?_, ?_, ?_, ?_, rfl, rfl⟩ <;> simp <;> omega

/-- Witness for C9 at the initial state. -/
theorem C9_navigation_witness :
    initState.currentIndex < 3 ∧
      ((onNext initState).currentIndex = (initState.currentIndex + 1) % 3 ∧
        ((onPrev initState).currentIndex : ℤ) =
          ((initState.currentIndex : ℤ) - 1 + 3) % 3 ∧
        (onNext initState).currentIndex < 3 ∧
        (onPrev initState).currentIndex < 3 ∧
        (onNext (onNext (onNext initState))).currentIndex =
          initState.currentIndex ∧
        (onPrev (onPrev (onPrev initState))).currentIndex =
          initState.currentIndex ∧
        (onNext initState).photos = initState.photos ∧
        (onPrev initState).photos = initState.photos) :=
  ⟨by decide, C9_navigation initState (by decide)⟩

/-- C10: from the review screen, the retake-this-angle press retargets
the camera at the displayed slot and reopens capture mode, changing
nothing else: the displayed index, every slot (image and label), and
the analysis report, in-flight flag and status are all unchanged. -/
theorem C10_retake_targets_displayed_slot (s : AppState)
    (h : s.captureMode = false) :
    applyEvent Event.retakePress s =
        { s with captureSlot := s.currentIndex, captureMode := true } ∧
      (pressRetake s).currentIndex = s.currentIndex ∧
      (pressRetake s).photos = s.photos ∧
      (pressRetake s).result = s.result ∧
      (pressRetake s).loading = s.loading ∧
      status (pressRetake s) = status s := by
  refine ⟨?_, rfl, rfl, rfl, rfl, rfl⟩
  simp [applyEvent, h, pressRetake]

/-- Witness for C10 at the three-capture preview state. -/
theorem C10_retake_targets_displayed_slot_witness :
    applyEvent Event.retakePress reviewedState =
        { reviewedState with
            captureSlot := reviewedState.currentIndex
            captureMode := true } ∧
      (pressRetake reviewedState).currentIndex = reviewedState.currentIndex ∧
      (pressRetake reviewedState).photos = reviewedState.photos ∧
      (pressRetake reviewedState).result = reviewedState.result ∧
      (pressRetake reviewedState).loading = reviewedState.loading ∧
      status (pressRetake reviewedState) = status reviewedState :=
  C10_retake_targets_displayed_slot reviewedState (by decide)

end FaceScanner
